import Mathlib

/-!
Shallow embedding of `src/bot.py` (a Telegram weather-broadcast bot) and
verification of the specification claims about it.

Modelling conventions, stated once:
* The process-global mutable set `CHATS` together with the durable file
  `chats.json` is modelled as an explicit `StoreState` threaded through the
  store operations (`register_chat`, `unregister_chat`, `broadcast`, the
  scheduled jobs).
* Durable storage is modelled at the JSON-value level (`FileState`):
  `json.dumps`/`json.loads` are inverse on JSON values, and pretty-printing
  (`indent=2`) does not affect the parsed value, so the text layer is elided.
  Content that `json.loads` rejects is the single constructor
  `FileState.invalid`; an absent file is `FileState.missing`.
* Python exceptions are modelled as `Option`/`Except` error results: a Python
  function that can raise returns `Option _` (with `none` = an uncaught
  exception such as `IndexError`), and `build_report` returns
  `Except BotError String` separating upstream (HTTP) failures from index
  errors.  Totality of a Lean function models the absence of uncaught
  exceptions on the corresponding Python paths.
* JSON numbers holding temperatures and precipitation probabilities are
  modelled as rationals; Python's `round` (banker's rounding, half to even)
  is `roundHalfEven`.  Python's rendering of a negative number that rounds
  to zero as "-0" is not modelled (it affects no claim).
-/

namespace WeatherBot

/-! ## Durable storage: `chats.json` (bot.py lines 38-51) -/

/-- A parsed JSON value, at the granularity `load_chats` inspects it.
Object fields are irrelevant to the program, so `obj` carries none. -/
inductive JsonVal where
  | num (n : ℤ)
  | real (q : ℚ)
  | str (s : String)
  | bool (b : Bool)
  | null
  | arr (xs : List JsonVal)
  | obj

/-- State of the durable file `chats.json`. -/
inductive FileState where
  | missing
  | invalid
  | json (v : JsonVal)

/-- Truncation toward zero, Python's `int(float)`. -/
def truncQ (q : ℚ) : ℤ := if q < 0 then ⌈q⌉ else ⌊q⌋

/-- Python's `int(x)` applied to a parsed JSON element: identity on integers,
truncation on non-integer numbers, `String.toInt?` approximates `int(str)`,
`True`/`False` coerce to 1/0, and everything else raises (`none`). -/
def pyInt : JsonVal → Option ℤ
  | .num n => some n
  | .real q => some (truncQ q)
  | .str s => s.toInt?
  | .bool b => some (if b then 1 else 0)
  | .null => none
  | .arr _ => none
  | .obj => none

/-- `JsonVal.isArr v` holds exactly for JSON arrays. -/
def JsonVal.isArr : JsonVal → Bool
  | .arr _ => true
  | _ => false

/-- `save_chats` (bot.py line 50): writes `json.dumps(sorted(chat_ids))`,
i.e. the sorted list of identifiers as a JSON array of integers. -/
def save_chats (chat_ids : Finset ℤ) : FileState :=
  .json (.arr ((chat_ids.sort (· ≤ ·)).map JsonVal.num))

/-- The generator `set(int(x) for x in data)`: all conversions, or `none`
if any `int(x)` raises. -/
def pyIntList : List JsonVal → Option (List ℤ)
  | [] => some []
  | x :: xs =>
    match pyInt x, pyIntList xs with
    | some n, some l => some (n :: l)
    | _, _ => none

/-- `load_chats` (bot.py lines 38-47): missing file gives the empty set; a
parse failure or any exception inside the `try` (including a failing
`int(x)`) gives the empty set; a JSON value that is not an array gives the
empty set; an array of convertible elements gives the set of conversions. -/
def load_chats : FileState → Finset ℤ
  | .missing => ∅
  | .invalid => ∅
  | .json v =>
    match v with
    | .arr xs =>
      match pyIntList xs with
      | some l => l.toFinset
      | none => ∅
    | _ => ∅

/-- The in-memory `CHATS` set together with the durable file. -/
structure StoreState where
  chats : Finset ℤ
  file : FileState

/-- `register_chat` (bot.py lines 57-63): returns `true` and persists iff the
chat was not yet present. -/
def register_chat (chat_id : ℤ) (st : StoreState) : Bool × StoreState :=
  if chat_id ∉ st.chats then
    let chats' := insert chat_id st.chats
    (true, ⟨chats', save_chats chats'⟩)
  else
    (false, st)

/-- `unregister_chat` (bot.py lines 66-72): returns `true` and persists iff
the chat was present. -/
def unregister_chat (chat_id : ℤ) (st : StoreState) : Bool × StoreState :=
  if chat_id ∈ st.chats then
    let chats' := st.chats.erase chat_id
    (true, ⟨chats', save_chats chats'⟩)
  else
    (false, st)

/-! ## Weather descriptions and rendering (bot.py lines 79-128) -/

/-- `WMO_TEXT` (bot.py lines 79-95): the fixed code → description table,
as a partial lookup (`dict.get`). -/
def WMO_TEXT (code : ℤ) : Option String :=
  if code = 0 then some "Ясно"
  else if code = 1 then some "Преимущественно ясно"
  else if code = 2 then some "Переменная облачность"
  else if code = 3 then some "Пасмурно"
  else if code = 45 then some "Туман"
  else if code = 48 then some "Туман"
  else if code = 51 then some "Морось"
  else if code = 61 then some "Дождь"
  else if code = 63 then some "Дождь"
  else if code = 65 then some "Сильный дождь"
  else if code = 71 then some "Снег"
  else if code = 73 then some "Снег"
  else if code = 75 then some "Сильный снег"
  else if code = 80 then some "Ливень"
  else if code = 95 then some "Гроза"
  else none

/-- `weather_emoji` (bot.py lines 98-115). -/
def weather_emoji (code : ℤ) : String :=
  if code = 0 then "☀️"
  else if code = 1 ∨ code = 2 then "⛅"
  else if code = 3 then "☁️"
  else if code = 45 ∨ code = 48 then "🌫"
  else if code = 51 then "🌦"
  else if code = 61 ∨ code = 63 ∨ code = 65 ∨ code = 80 then "🌧"
  else if code = 71 ∨ code = 73 ∨ code = 75 then "❄️"
  else if code = 95 then "⛈"
  else "🌡"

/-- Python's `round` on a real value: round half to even (banker's
rounding), as performed by `round(pop)` in `precip_label`.  The fractional
part `q - ⌊q⌋ = (q.num - ⌊q⌋ * q.den) / q.den` is compared with 1/2 by
cross-multiplying with the (positive) denominator, keeping the whole
computation in integer arithmetic. -/
def roundHalfEven (q : ℚ) : ℤ :=
  let f := ⌊q⌋
  let twiceFracNum := 2 * (q.num - f * (q.den : ℤ))
  if twiceFracNum < (q.den : ℤ) then f
  else if (q.den : ℤ) < twiceFracNum then f + 1
  else if Even f then f else f + 1

/-- `precip_label` (bot.py lines 118-128): `None` probability or a rounded
probability below 10 renders nothing; snow, rain and other codes get three
differently labelled strings. -/
def precip_label (code : ℤ) (pop : Option ℚ) : String :=
  match pop with
  | none => ""
  | some p =>
    let pop_i := roundHalfEven p
    if pop_i < 10 then ""
    else if code = 71 ∨ code = 73 ∨ code = 75 then s!"снег ({pop_i}%)"
    else if code = 61 ∨ code = 63 ∨ code = 65 ∨ code = 80 then s!"дождь ({pop_i}%)"
    else s!"осадки ({pop_i}%)"

/-! ## Forecast data and slot extraction (bot.py lines 149-205) -/

/-- The `data["hourly"]` payload: parallel arrays indexed by hour.  A
probability entry can be JSON `null` (`None` in Python), hence `Option ℚ`. -/
structure Hourly where
  time : List String
  temperature_2m : List ℚ
  weathercode : List ℤ
  precipitation_probability : List (Option ℚ)

/-- Well-formedness of an upstream payload: the parallel arrays cover every
timestamp index. -/
def Hourly.wf (d : Hourly) : Prop :=
  d.temperature_2m.length = d.time.length ∧
  d.weathercode.length = d.time.length ∧
  d.precipitation_probability.length = d.time.length

/-- `t.split("T")[0]`: the calendar-date part of an ISO timestamp — the
prefix of `t` before the first "T" (the whole string when "T" is absent).
`str.split` always returns a nonempty list, so index 0 never raises. -/
def datePart (t : String) : String := ⟨t.data.takeWhile (· != 'T')⟩

/-- The collection loop of `_target_date_from_hourly_times` (bot.py lines
151-157): scan timestamps, append the date when it differs from the last
collected one, stop as soon as two dates are collected. -/
def collectDatesAux (dates : List String) : List String → List String
  | [] => dates
  | t :: ts =>
    let d := datePart t
    if dates.getLast? ≠ some d then
      let dates' := dates ++ [d]
      if 2 ≤ dates'.length then dates' else collectDatesAux dates' ts
    else
      collectDatesAux dates ts

/-- The distinct dates (at most two) collected from a timestamp sequence. -/
def collectDates (times : List String) : List String := collectDatesAux [] times

/-- `_target_date_from_hourly_times` (bot.py lines 149-160).  `none` models
the `IndexError` that `dates[0]`/`dates[1]` raises on an empty collection. -/
def targetDateFromHourlyTimes (times : List String) (day_index : Nat) : Option String :=
  let dates := collectDates times
  if day_index = 0 then dates.get? 0
  else if 1 < dates.length then dates.get? 1 else dates.get? 0

/-- The `for i, t in enumerate(times): if t == target_time` scan of
`get_hour_forecast`: index of the first exact match. -/
def findSlotIdx (target : String) : List String → Option Nat
  | [] => none
  | t :: ts => if t = target then some 0 else (findSlotIdx target ts).map (· + 1)

/-- Python's `f"{temp:.0f}"`: the temperature rounded (half to even) to an
integer.  (The "-0" Python prints for small negatives is not modelled.) -/
def formatTemp (temp : ℚ) : String := toString (roundHalfEven temp)

/-- The slot line built at a matching index (bot.py lines 172-182). -/
def renderSlot (temp : ℚ) (code : ℤ) (pop : Option ℚ) : String :=
  let emoji := weather_emoji code
  let desc := (WMO_TEXT code).getD "Погода"
  let precip := precip_label code pop
  let precip_part := if precip ≠ "" then s!", {precip}" else ""
  s!"{emoji} {formatTemp temp}°C, {desc}{precip_part}"

/-- `get_hour_forecast` (bot.py lines 163-184): resolve the target date,
look for the exact timestamp `target_date + "T" + hour`; the first match is
rendered, a missing match yields the placeholder.  `none` models an uncaught
exception (empty timestamp list, or arrays shorter than the match index). -/
def get_hour_forecast (data : Hourly) (day_index : Nat) (hour : String) : Option String := do
  let target_date ← targetDateFromHourlyTimes data.time day_index
  let target_time := target_date ++ "T" ++ hour
  match findSlotIdx target_time data.time with
  | some i => do
    let temp ← data.temperature_2m.get? i
    let code ← data.weathercode.get? i
    let pop ← data.precipitation_probability.get? i
    pure (renderSlot temp code pop)
  | none => pure "нет данных"

/-! ## Report assembly (bot.py lines 24-27, 187-205) -/

/-- `LOCATIONS` (bot.py lines 24-27). -/
def LOCATIONS : List (String × ℚ × ℚ) :=
  [("Ельники (Мордовия)", 54.62348, 43.87309),
   ("Волхов (Ленинградская область)", 59.9258, 32.33819)]

/-- Exceptions that can escape `build_report`: an `httpx` error raised by
`fetch_weather`, or an `IndexError` from slot extraction. -/
inductive BotError where
  | upstream
  | indexError

/-- A location's block in the report (bot.py lines 198-203). -/
def locBlock (name morning day evening : String) : String :=
  s!"📍 {name}\n• Утро:   {morning}\n• День:   {day}\n• Вечер:  {evening}\n"

/-- The per-location body of `build_report`'s loop: three slot extractions
and the block string; `none` models a propagating exception. -/
def renderLocation (name : String) (data : Hourly) (day_index : Nat) : Option String := do
  let morning ← get_hour_forecast data day_index "08:00"
  let day ← get_hour_forecast data day_index "14:00"
  let evening ← get_hour_forecast data day_index "20:00"
  pure (locBlock name morning day evening)

/-- A `WeatherProvider`: `fetch_weather(lat, lon)` either returns the parsed
hourly payload or raises an `httpx` error (`Except.error ()`). -/
def Fetcher : Type := ℚ → ℚ → Except Unit Hourly

/-- The location loop of `build_report` (bot.py lines 191-203), also counting
how many `fetch_weather` calls were made: evaluation is sequential, so the
first exception stops the loop and no later location is fetched. -/
def reportLoop (fetcher : Fetcher) (day_index : Nat) :
    List (String × ℚ × ℚ) → Nat × Except BotError (List String)
  | [] => (0, .ok [])
  | (name, lat, lon) :: rest =>
    match fetcher lat lon with
    | .error _ => (1, .error .upstream)
    | .ok data =>
      match renderLocation name data day_index with
      | none => (1, .error .indexError)
      | some block =>
        let r := reportLoop fetcher day_index rest
        (r.1 + 1, r.2.map (block :: ·))

/-- `build_report` (bot.py lines 187-205). -/
def build_report (fetcher : Fetcher) (day_index : Nat) : Except BotError String :=
  let title := if day_index = 0 then "🌤 Прогноз на сегодня\n" else "🌙 Прогноз на завтра\n"
  match (reportLoop fetcher day_index LOCATIONS).2 with
  | .error e => .error e
  | .ok blocks => .ok ((String.intercalate "\n" (title :: blocks)).trim)

/-- Number of `fetch_weather` calls a `build_report` run performs. -/
def fetchCalls (fetcher : Fetcher) (day_index : Nat) : Nat :=
  (reportLoop fetcher day_index LOCATIONS).1

/-! ## Broadcast with pruning (bot.py lines 212-242) -/

/-- A `MessageSink`: `app.bot.send_message(chat_id, text)` either delivers or
raises (`Except.error ()`). -/
def Sink : Type := ℤ → String → Except Unit Unit

/-- Whether a delivery to `c` succeeds. -/
def sendOk (sink : Sink) (text : String) (c : ℤ) : Bool :=
  match sink c text with
  | .ok _ => true
  | .error _ => false

/-- The delivery loop of `broadcast` (bot.py lines 214-224): every chat in
the snapshot is attempted; a raise is caught and the chat is added to `dead`,
and the loop continues with the remaining chats.  Returns (attempted chats in
order, dead chats in order). -/
def broadcastLoop (sink : Sink) (text : String) : List ℤ → List ℤ × List ℤ
  | [] => ([], [])
  | c :: rest =>
    let r := broadcastLoop sink text rest
    match sink c text with
    | .ok _ => (c :: r.1, r.2)
    | .error _ => (c :: r.1, c :: r.2)

/-- `broadcast` (bot.py lines 212-228): snapshot `list(CHATS)` (modelled as
the sorted enumeration of the set — Python's set iteration order is
unspecified and no claim depends on it), attempt every delivery, then, if
any died, unregister each dead chat (each removal persists).  Returns the
attempted chats and the updated store. -/
def broadcast (sink : Sink) (text : String) (st : StoreState) : List ℤ × StoreState :=
  let snapshot := st.chats.sort (· ≤ ·)
  let r := broadcastLoop sink text snapshot
  if r.2.isEmpty then (r.1, st)
  else (r.1, r.2.foldl (fun s c => (unregister_chat c s).2) st)

/-- `send_today` (bot.py lines 231-235), instrumented with the number of
`fetch_weather` calls and the list of attempted deliveries: an empty chat
set returns immediately; otherwise the report is built (a raise propagates
to the job runner, delivering nothing) and broadcast. -/
def send_today (fetcher : Fetcher) (sink : Sink) (st : StoreState) :
    (Nat × List ℤ) × StoreState :=
  if st.chats = ∅ then ((0, []), st)
  else
    match build_report fetcher 0 with
    | .error _ => ((fetchCalls fetcher 0, []), st)
    | .ok text =>
      let r := broadcast sink text st
      ((fetchCalls fetcher 0, r.1), r.2)

/-- `send_tomorrow` (bot.py lines 238-242), instrumented like `send_today`. -/
def send_tomorrow (fetcher : Fetcher) (sink : Sink) (st : StoreState) :
    (Nat × List ℤ) × StoreState :=
  if st.chats = ∅ then ((0, []), st)
  else
    match build_report fetcher 1 with
    | .error _ => ((fetchCalls fetcher 1, []), st)
    | .ok text =>
      let r := broadcast sink text st
      ((fetchCalls fetcher 1, r.1), r.2)

/-! ## Helper lemmas -/

lemma pyIntList_map_num (l : List ℤ) : pyIntList (l.map JsonVal.num) = some l := by
  induction l with
  | nil => rfl
  | cons n ns ih => simp [pyIntList, pyInt, ih]

/-! ## Claims about the recipient store -/

/-- C2: persisting any finite set S of integer identifiers and then loading
yields exactly S: `load_chats (save_chats S) = S`. -/
theorem c2_persistence_round_trip (S : Finset ℤ) : load_chats (save_chats S) = S := by
  simp only [save_chats, load_chats, pyIntList_map_num]
  exact S.sort_toFinset _

/-- C3: `load_chats` returns the empty set on a missing file, on content that
fails to parse as JSON (non-JSON bytes included), and on any parsed JSON
value that is not an array; it is a total function, so no error reaches the
caller on any of these storage states. -/
theorem c3_corruption_tolerance :
    load_chats .missing = ∅ ∧
    load_chats .invalid = ∅ ∧
    ∀ v : JsonVal, v.isArr = false → load_chats (.json v) = ∅ := by
  refine ⟨rfl, rfl, fun v hv => ?_⟩
  cases v with
  | arr xs => simp [JsonVal.isArr] at hv
  | num n => rfl
  | real q => rfl
  | str s => rfl
  | bool b => rfl
  | null => rfl
  | obj => rfl

/-- Witness for C3: a JSON object (not an array) loads as the empty set. -/
theorem c3_corruption_tolerance_witness : load_chats (.json .obj) = ∅ :=
  c3_corruption_tolerance.2.2 .obj rfl

/-- C4: `register_chat` returns true iff the identifier was absent, persists
the updated set on first insertion, and is idempotent: a second registration
returns false and leaves the state (with exactly one occurrence of the
identifier, the set being a set) unchanged. -/
theorem c4_idempotent_registration (chat_id : ℤ) (st : StoreState) :
    ((register_chat chat_id st).1 = true ↔ chat_id ∉ st.chats) ∧
    (chat_id ∉ st.chats →
      (register_chat chat_id st).2.file = save_chats (insert chat_id st.chats)) ∧
    (register_chat chat_id (register_chat chat_id st).2).1 = false ∧
    (register_chat chat_id (register_chat chat_id st).2).2.chats = insert chat_id st.chats ∧
    (register_chat chat_id (register_chat chat_id st).2).2 = (register_chat chat_id st).2 := by
  by_cases hmem : chat_id ∈ st.chats
  · simp [register_chat, hmem, Finset.insert_eq_self.mpr hmem]
  · simp [register_chat, hmem]

/-- Witness for C4: registering 5 into the empty store persists {5}, and a
second registration returns false without changing the state. -/
theorem c4_idempotent_registration_witness :
    (register_chat 5 ⟨∅, .missing⟩).2.file = save_chats {5} ∧
    (register_chat 5 (register_chat 5 ⟨∅, .missing⟩).2).1 = false := by
  have h := c4_idempotent_registration 5 ⟨∅, .missing⟩
  exact ⟨h.2.1 (by decide), h.2.2.1⟩

/-! ## Claims about the scheduled jobs -/

/-- C9: when the recipient set is empty, both scheduled jobs return
immediately: zero `fetch_weather` calls (the report is never built), zero
delivery attempts, and an unchanged store. -/
theorem c9_empty_broadcast_short_circuit (fetcher : Fetcher) (sink : Sink)
    (st : StoreState) (h : st.chats = ∅) :
    send_today fetcher sink st = ((0, []), st) ∧
    send_tomorrow fetcher sink st = ((0, []), st) := by
  constructor
  · simp [send_today, h]
  · simp [send_tomorrow, h]

/-- Witness for C9: the jobs at an empty store with concrete collaborators. -/
theorem c9_empty_broadcast_short_circuit_witness :
    send_today (fun _ _ => .error ()) (fun _ _ => .ok ()) ⟨∅, .missing⟩ =
      ((0, []), ⟨∅, .missing⟩) ∧
    send_tomorrow (fun _ _ => .error ()) (fun _ _ => .ok ()) ⟨∅, .missing⟩ =
      ((0, []), ⟨∅, .missing⟩) :=
  c9_empty_broadcast_short_circuit _ _ _ rfl

/-! ## Claim C1: broadcast with pruning -/

lemma broadcastLoop_fst (sink : Sink) (text : String) (l : List ℤ) :
    (broadcastLoop sink text l).1 = l := by
  induction l with
  | nil => rfl
  | cons c rest ih =>
    simp only [broadcastLoop]
    cases sink c text <;> simp [ih]

lemma broadcastLoop_snd (sink : Sink) (text : String) (l : List ℤ) :
    (broadcastLoop sink text l).2 = l.filter (fun c => !(sendOk sink text c)) := by
  induction l with
  | nil => rfl
  | cons c rest ih =>
    simp only [broadcastLoop, List.filter]
    cases hc : sink c text <;> simp [sendOk, hc, ih]

lemma unregister_foldl (l : List ℤ) (st : StoreState) (hnd : l.Nodup)
    (hsub : ∀ c ∈ l, c ∈ st.chats) :
    (l.foldl (fun s c => (unregister_chat c s).2) st).chats = st.chats \ l.toFinset ∧
    (l ≠ [] →
      (l.foldl (fun s c => (unregister_chat c s).2) st).file =
        save_chats (l.foldl (fun s c => (unregister_chat c s).2) st).chats) := by
  induction l generalizing st with
  | nil => simp
  | cons c rest ih =>
    have hc : c ∈ st.chats := hsub c (List.mem_cons_self c rest)
    have hstep : (unregister_chat c st).2 = ⟨st.chats.erase c, save_chats (st.chats.erase c)⟩ := by
      simp [unregister_chat, hc]
    have hsub' : ∀ x ∈ rest, x ∈ (st.chats.erase c) := by
      intro x hx
      refine Finset.mem_erase.mpr ⟨?_, hsub x (List.mem_cons_of_mem c hx)⟩
      intro hxc
      exact (List.nodup_cons.mp hnd).1 (hxc ▸ hx)
    have ih' := ih ⟨st.chats.erase c, save_chats (st.chats.erase c)⟩
      (List.nodup_cons.mp hnd).2 hsub'
    constructor
    · simp only [List.foldl_cons, hstep]
      rw [ih'.1]
      ext x
      simp [Finset.mem_sdiff, Finset.mem_erase]
      tauto
    · intro _
      simp only [List.foldl_cons, hstep]
      cases hrest : rest with
      | nil => simp [hrest]
      | cons y ys =>
        have := ih'.2 (by simp [hrest])
        rw [hrest] at this
        exact this

/-- C1: for every store state, sink behavior and text, `broadcast` attempts a
delivery to every recipient in the snapshot taken at call time (a failure
never aborts the loop); afterwards the in-memory set retains exactly the
recipients whose delivery succeeded; if every delivery succeeded the store is
untouched, and if any failed the pruned set is persisted. -/
theorem c1_broadcast_pruning (sink : Sink) (text : String) (st : StoreState) :
    (broadcast sink text st).1 = st.chats.sort (· ≤ ·) ∧
    (broadcast sink text st).2.chats = st.chats.filter (fun c => sendOk sink text c = true) ∧
    ((∀ c ∈ st.chats, sendOk sink text c = true) → (broadcast sink text st).2 = st) ∧
    ((∃ c ∈ st.chats, sendOk sink text c = false) →
      (broadcast sink text st).2.file =
        save_chats (st.chats.filter (fun c => sendOk sink text c = true))) := by
  classical
  set dead := (st.chats.sort (· ≤ ·)).filter (fun c => !(sendOk sink text c)) with hdead
  have hbc : broadcast sink text st =
      (st.chats.sort (· ≤ ·),
        if dead.isEmpty then st
        else dead.foldl (fun s c => (unregister_chat c s).2) st) := by
    by_cases h : dead.isEmpty <;>
      simp [broadcast, broadcastLoop_fst, broadcastLoop_snd, ← hdead, h]
  have hnd : dead.Nodup := (Finset.sort_nodup _ st.chats).filter _
  have hsub : ∀ c ∈ dead, c ∈ st.chats := by
    intro c hc
    have := (List.mem_filter.mp hc).1
    exact (Finset.mem_sort (α := ℤ) (· ≤ ·)).mp this
  have hfold := unregister_foldl dead st hnd hsub
  have hset : st.chats \ dead.toFinset =
      st.chats.filter (fun c => sendOk sink text c = true) := by
    ext x
    simp only [Finset.mem_sdiff, List.mem_toFinset, hdead, List.mem_filter,
      Finset.mem_sort, Finset.mem_filter, Bool.not_eq_true', not_and]
    constructor
    · intro ⟨hx, hnot⟩
      refine ⟨hx, ?_⟩
      by_contra hko
      exact absurd (hnot hx) (by simp [Bool.not_eq_false] at hko ⊢; simp [hko])
    · intro ⟨hx, hok⟩
      exact ⟨hx, fun _ hko => by rw [hok] at hko; cases hko⟩
  by_cases hde : dead.isEmpty
  · have hdeq : dead = [] := List.isEmpty_iff.mp hde
    have hallok : ∀ c ∈ st.chats, sendOk sink text c = true := by
      intro c hc
      have hmem : c ∈ st.chats.sort (· ≤ ·) := (Finset.mem_sort (· ≤ ·)).mpr hc
      have := List.filter_eq_nil_iff.mp (hdead ▸ hdeq) c hmem
      simpa using this
    refine ⟨by rw [hbc], ?_, fun _ => by rw [hbc]; simp [hde], ?_⟩
    · rw [hbc]
      simp only [hde, if_true]
      exact (Finset.filter_eq_self.mpr fun c hc => hallok c hc).symm
    · rintro ⟨c, hc, hko⟩
      rw [hallok c hc] at hko
      cases hko
  · have hne : dead ≠ [] := fun h => hde (by simp [h])
    have hchats : (broadcast sink text st).2.chats =
        st.chats.filter (fun c => sendOk sink text c = true) := by
      rw [hbc]
      simp only [if_neg hde]
      rw [hfold.1, hset]
    refine ⟨by rw [hbc], hchats, ?_, ?_⟩
    · intro hallok
      exfalso
      rcases List.exists_mem_of_ne_nil dead hne with ⟨c, hc⟩
      have hko := (List.mem_filter.mp (hdead ▸ hc)).2
      have hcm := hsub c hc
      rw [hallok c hcm] at hko
      cases hko
    · intro _
      have hfile := hfold.2 hne
      rw [hbc]
      simp only [if_neg hde]
      rw [hfile, hfold.1, hset]

/-- Witness for C1: for the set {1, 2, 3} with a sink failing only for 2,
all three deliveries are attempted and the persisted set is exactly {1, 3}. -/
theorem c1_broadcast_pruning_witness :
    (broadcast (fun c _ => if c = 2 then .error () else .ok ()) "report"
      ⟨{1, 2, 3}, save_chats {1, 2, 3}⟩).1 = [1, 2, 3] ∧
    (broadcast (fun c _ => if c = 2 then .error () else .ok ()) "report"
      ⟨{1, 2, 3}, save_chats {1, 2, 3}⟩).2.chats = ({1, 3} : Finset ℤ) ∧
    (broadcast (fun c _ => if c = 2 then .error () else .ok ()) "report"
      ⟨{1, 2, 3}, save_chats {1, 2, 3}⟩).2.file = save_chats {1, 3} := by
  have h := c1_broadcast_pruning (fun c _ => if c = 2 then .error () else .ok ())
    "report" ⟨{1, 2, 3}, save_chats {1, 2, 3}⟩
  refine ⟨?_, ?_, ?_⟩
  · rw [h.1]
    rw [show ({1, 2, 3} : Finset ℤ) = insert 1 (insert 2 {3}) from rfl,
      Finset.sort_insert (r := (· ≤ ·)) (by decide) (by decide),
      Finset.sort_insert (r := (· ≤ ·)) (by decide) (by decide),
      Finset.sort_singleton]
  · rw [h.2.1]; decide
  · rw [h.2.2.2 ⟨2, by decide, by decide⟩]
    congr 1

/-! ## Claim C6: target-date resolution -/

lemma collectDates_cons (t : String) (ts : List String) :
    collectDates (t :: ts) = collectDatesAux [datePart t] ts := by
  simp [collectDates, collectDatesAux]

lemma collectDatesAux_single (d1 : String) (ts : List String) :
    ((ts.map datePart).find? (· != d1) = none → collectDatesAux [d1] ts = [d1]) ∧
    (∀ d2, (ts.map datePart).find? (· != d1) = some d2 →
      collectDatesAux [d1] ts = [d1, d2]) := by
  induction ts with
  | nil => exact ⟨fun _ => rfl, fun d2 h => by simp [List.find?] at h⟩
  | cons t ts ih =>
    by_cases hd : datePart t = d1
    · have hb : (datePart t != d1) = false := by simp [hd]
      constructor
      · intro hfind
        simp only [List.map_cons, List.find?_cons, hb] at hfind
        simp only [collectDatesAux, List.getLast?_singleton, hd, ne_eq,
          not_true_eq_false, if_false]
        exact ih.1 hfind
      · intro d2 hfind
        simp only [List.map_cons, List.find?_cons, hb] at hfind
        simp only [collectDatesAux, List.getLast?_singleton, hd, ne_eq,
          not_true_eq_false, if_false]
        exact ih.2 d2 hfind
    · have hb : (datePart t != d1) = true := by simp [hd]
      constructor
      · intro hfind
        simp only [List.map_cons, List.find?_cons, hb] at hfind
        cases hfind
      · intro d2 hfind
        simp only [List.map_cons, List.find?_cons, hb] at hfind
        have hd2 : d2 = datePart t := by
          cases hfind
          rfl
        subst hd2
        simp [collectDatesAux, List.getLast?_singleton, Ne.symm hd]

/-- C6: for every non-empty timestamp sequence, the resolved target date for
day_index 0 is the first calendar date of the sequence, and for day_index 1
it is the first date differing from it when one exists (the second distinct
date in order of appearance), otherwise the first date again — a one-date
series falls back rather than failing. -/
theorem c6_target_date_resolution (times : List String) (h : times ≠ []) :
    targetDateFromHourlyTimes times 0 = some (datePart (times.headD "")) ∧
    targetDateFromHourlyTimes times 1 =
      some (((times.map datePart).find? (· != datePart (times.headD ""))).getD
        (datePart (times.headD ""))) := by
  cases times with
  | nil => exact absurd rfl h
  | cons t ts =>
    have hsingle := collectDatesAux_single (datePart t) ts
    have hhead : (t :: ts).headD "" = t := rfl
    have hfull : ((t :: ts).map datePart).find? (· != datePart t) =
        (ts.map datePart).find? (· != datePart t) := by
      simp [List.find?_cons]
    cases hfind : (ts.map datePart).find? (· != datePart t) with
    | none =>
      have hcd : collectDates (t :: ts) = [datePart t] := by
        rw [collectDates_cons]
        exact hsingle.1 hfind
      constructor
      · simp [targetDateFromHourlyTimes, hcd]
      · simp [targetDateFromHourlyTimes, hcd, hhead, hfull, hfind]
    | some d2 =>
      have hcd : collectDates (t :: ts) = [datePart t, d2] := by
        rw [collectDates_cons]
        exact hsingle.2 d2 hfind
      constructor
      · simp [targetDateFromHourlyTimes, hcd]
      · simp [targetDateFromHourlyTimes, hcd, hhead, hfull, hfind]

/-- Witness for C6: a two-date series resolves day 0 to the first date and
day 1 to the second; evaluated at a concrete series. -/
theorem c6_target_date_resolution_witness :
    targetDateFromHourlyTimes
      ["2024-01-01T23:00", "2024-01-02T00:00"] 0 = some "2024-01-01" ∧
    targetDateFromHourlyTimes
      ["2024-01-01T23:00", "2024-01-02T00:00"] 1 = some "2024-01-02" := by
  have h := c6_target_date_resolution ["2024-01-01T23:00", "2024-01-02T00:00"]
    (by decide)
  refine ⟨?_, ?_⟩
  · rw [h.1]; decide
  · rw [h.2]; decide

/-! ## Claim C7: exact slot lookup and the no-data placeholder -/

lemma targetDate_isSome (times : List String) (day_index : Nat) (h : times ≠ []) :
    ∃ td, targetDateFromHourlyTimes times day_index = some td := by
  cases times with
  | nil => exact absurd rfl h
  | cons t ts =>
    cases hfind : (ts.map datePart).find? (· != datePart t) with
    | none =>
      have hcd : collectDates (t :: ts) = [datePart t] := by
        rw [collectDates_cons]
        exact (collectDatesAux_single _ _).1 hfind
      by_cases hday : day_index = 0
      · exact ⟨datePart t, by simp [targetDateFromHourlyTimes, hcd, hday]⟩
      · exact ⟨datePart t, by simp [targetDateFromHourlyTimes, hcd, hday]⟩
    | some d2 =>
      have hcd : collectDates (t :: ts) = [datePart t, d2] := by
        rw [collectDates_cons]
        exact (collectDatesAux_single _ _).2 d2 hfind
      by_cases hday : day_index = 0
      · exact ⟨datePart t, by simp [targetDateFromHourlyTimes, hcd, hday]⟩
      · exact ⟨d2, by simp [targetDateFromHourlyTimes, hcd, hday]⟩

lemma findSlotIdx_eq_none (target : String) (l : List String) (h : target ∉ l) :
    findSlotIdx target l = none := by
  induction l with
  | nil => rfl
  | cons t ts ih =>
    have hne : t ≠ target := fun e => h (e ▸ List.mem_cons_self t ts)
    simp only [findSlotIdx, if_neg hne]
    rw [ih (fun hm => h (List.mem_cons_of_mem t hm))]
    rfl

lemma findSlotIdx_lt_length (target : String) (l : List String) (i : Nat)
    (h : findSlotIdx target l = some i) : i < l.length := by
  induction l generalizing i with
  | nil => cases h
  | cons t ts ih =>
    by_cases ht : t = target
    · simp only [findSlotIdx, if_pos ht] at h
      cases h
      simp
    · simp only [findSlotIdx, if_neg ht] at h
      cases hrec : findSlotIdx target ts with
      | none => rw [hrec] at h; cases h
      | some j =>
        rw [hrec] at h
        have : i = j + 1 := by
          cases h
          rfl
        subst this
        exact Nat.succ_lt_succ (ih j hrec)

lemma exists_get?_of_lt {α : Type} (l : List α) (i : Nat) (h : i < l.length) :
    ∃ x, l.get? i = some x :=
  ⟨l.get ⟨i, h⟩, List.get?_eq_get h⟩

lemma get_hour_forecast_isSome (data : Hourly) (day_index : Nat) (hour : String)
    (hne : data.time ≠ []) (hwf : data.wf) :
    ∃ s, get_hour_forecast data day_index hour = some s := by
  obtain ⟨td, htd⟩ := targetDate_isSome data.time day_index hne
  cases hf : findSlotIdx (td ++ "T" ++ hour) data.time with
  | none => exact ⟨"нет данных", by simp [get_hour_forecast, htd, hf]⟩
  | some i =>
    have hi := findSlotIdx_lt_length _ _ _ hf
    obtain ⟨temp, h1⟩ := exists_get?_of_lt data.temperature_2m i (hwf.1 ▸ hi)
    obtain ⟨code, h2⟩ := exists_get?_of_lt data.weathercode i (hwf.2.1 ▸ hi)
    obtain ⟨pop, h3⟩ := exists_get?_of_lt data.precipitation_probability i (hwf.2.2 ▸ hi)
    rw [List.get?_eq_getElem?] at h1 h2 h3
    exact ⟨renderSlot temp code pop, by simp [get_hour_forecast, htd, hf, h1, h2, h3]⟩

/-- C7: for each hour marker, the slot lookup requires the timestamp
`target_date ++ "T" ++ hour` to occur exactly: when it does not, the slot
renders as the explicit placeholder "нет данных"; the slot extraction still
succeeds, and the location block of the report is built from all three slot
renderings, so the other slots are included. -/
theorem c7_missing_slot_placeholder (data : Hourly) (day_index : Nat) (hour : String)
    (hne : data.time ≠ []) (hwf : data.wf)
    (_hhour : hour ∈ ["08:00", "14:00", "20:00"]) :
    ∃ td, targetDateFromHourlyTimes data.time day_index = some td ∧
      ((td ++ "T" ++ hour) ∉ data.time →
        get_hour_forecast data day_index hour = some "нет данных") ∧
      (∃ s, get_hour_forecast data day_index hour = some s) ∧
      ∀ name, renderLocation name data day_index =
        some (locBlock name
          ((get_hour_forecast data day_index "08:00").getD "")
          ((get_hour_forecast data day_index "14:00").getD "")
          ((get_hour_forecast data day_index "20:00").getD "")) := by
  obtain ⟨td, htd⟩ := targetDate_isSome data.time day_index hne
  refine ⟨td, htd, ?_, get_hour_forecast_isSome data day_index hour hne hwf, ?_⟩
  · intro hnotmem
    have hf := findSlotIdx_eq_none _ _ hnotmem
    simp [get_hour_forecast, htd, hf]
  · intro name
    obtain ⟨s8, h8⟩ := get_hour_forecast_isSome data day_index "08:00" hne hwf
    obtain ⟨s14, h14⟩ := get_hour_forecast_isSome data day_index "14:00" hne hwf
    obtain ⟨s20, h20⟩ := get_hour_forecast_isSome data day_index "20:00" hne hwf
    simp [renderLocation, h8, h14, h20]

/-- A two-slot day with no record at the exact "14:00" timestamp. -/
def sampleMissingNoon : Hourly :=
  ⟨["2024-01-01T08:00", "2024-01-01T20:00"], [1, 2], [0, 0], [some 0, some 0]⟩

/-- Witness for C7: with no record at "2024-01-01T14:00", the day slot
renders the explicit placeholder and the block still carries the other two
rendered slots. -/
theorem c7_missing_slot_placeholder_witness :
    get_hour_forecast sampleMissingNoon 0 "14:00" = some "нет данных" ∧
    renderLocation "L1" sampleMissingNoon 0 =
      some (locBlock "L1" "☀️ 1°C, Ясно" "нет данных" "☀️ 2°C, Ясно") := by
  obtain ⟨td, htd, hplaceholder, _, hblock⟩ :=
    c7_missing_slot_placeholder sampleMissingNoon 0 "14:00" (by decide)
      ⟨rfl, rfl, rfl⟩ (by decide)
  have he : targetDateFromHourlyTimes sampleMissingNoon.time 0 = some "2024-01-01" := by
    decide
  rw [he] at htd
  have htd' : td = "2024-01-01" := (Option.some.inj htd).symm
  subst htd'
  have hmain := hplaceholder (by decide)
  refine ⟨hmain, ?_⟩
  have h8 : get_hour_forecast sampleMissingNoon 0 "08:00" = some "☀️ 1°C, Ясно" := by
    decide
  have h20 : get_hour_forecast sampleMissingNoon 0 "20:00" = some "☀️ 2°C, Ясно" := by
    decide
  rw [hblock "L1", h8, h20, hmain]
  rfl

/-! ## Claim C10: an empty hourly series aborts the report build -/

/-- C10: target-date resolution succeeds on every non-empty timestamp
sequence, but on an empty sequence it is an `IndexError` (`none`), so slot
extraction fails rather than degrading to the placeholder, and a fetch that
returns an empty series makes the whole `build_report` fail with an index
error. -/
theorem c10_empty_series_aborts_report :
    (∀ (times : List String) (day_index : Nat), times ≠ [] →
      (targetDateFromHourlyTimes times day_index).isSome = true) ∧
    (∀ day_index : Nat, targetDateFromHourlyTimes [] day_index = none) ∧
    (∀ (data : Hourly) (day_index : Nat) (hour : String), data.time = [] →
      get_hour_forecast data day_index hour = none) ∧
    (∀ (fetcher : Fetcher) (day_index : Nat) (data : Hourly),
      fetcher 54.62348 43.87309 = .ok data → data.time = [] →
      build_report fetcher day_index = .error .indexError) := by
  have hempty : ∀ day_index : Nat, targetDateFromHourlyTimes [] day_index = none := by
    intro day_index
    by_cases hday : day_index = 0 <;>
      simp [targetDateFromHourlyTimes, collectDates, collectDatesAux, hday]
  have hslot : ∀ (data : Hourly) (day_index : Nat) (hour : String), data.time = [] →
      get_hour_forecast data day_index hour = none := by
    intro data day_index hour htime
    simp [get_hour_forecast, htime, hempty]
  refine ⟨?_, hempty, hslot, ?_⟩
  · intro times day_index hne
    obtain ⟨td, htd⟩ := targetDate_isSome times day_index hne
    simp [htd]
  · intro fetcher day_index data hfetch htime
    have hrl : renderLocation "Ельники (Мордовия)" data day_index = none := by
      simp [renderLocation, hslot data day_index "08:00" htime]
    simp [build_report, reportLoop, LOCATIONS, hfetch, hrl]

/-- Witness for C10: an all-empty payload makes slot extraction raise and the
report build abort with an index error. -/
theorem c10_empty_series_aborts_report_witness :
    get_hour_forecast ⟨[], [], [], []⟩ 0 "08:00" = none ∧
    build_report (fun _ _ => .ok ⟨[], [], [], []⟩) 0 = .error .indexError := by
  refine ⟨c10_empty_series_aborts_report.2.2.1 ⟨[], [], [], []⟩ 0 "08:00" rfl, ?_⟩
  exact c10_empty_series_aborts_report.2.2.2 (fun _ _ => .ok ⟨[], [], [], []⟩) 0
    ⟨[], [], [], []⟩ rfl rfl

/-! ## Claim C5: upstream failure aborts the whole report -/

/-- C5: if the weather fetch fails for any configured location (the data of
the locations that do succeed being processable), `build_report` fails with
the propagated upstream error and produces no (partial) report text. -/
theorem c5_upstream_error_propagates (fetcher : Fetcher) (day_index : Nat)
    (hgood : ∀ p ∈ LOCATIONS, ∀ d, fetcher p.2.1 p.2.2 = .ok d → d.time ≠ [] ∧ d.wf)
    (hfail : ∃ p ∈ LOCATIONS, fetcher p.2.1 p.2.2 = .error ()) :
    build_report fetcher day_index = .error .upstream := by
  cases h1 : fetcher 54.62348 43.87309 with
  | error e =>
    simp [build_report, reportLoop, LOCATIONS, h1]
  | ok d1 =>
    have hd1 := hgood ("Ельники (Мордовия)", 54.62348, 43.87309)
      (List.mem_cons_self _ _) d1 h1
    obtain ⟨s8, h8⟩ := get_hour_forecast_isSome d1 day_index "08:00" hd1.1 hd1.2
    obtain ⟨s14, h14⟩ := get_hour_forecast_isSome d1 day_index "14:00" hd1.1 hd1.2
    obtain ⟨s20, h20⟩ := get_hour_forecast_isSome d1 day_index "20:00" hd1.1 hd1.2
    have hrl : renderLocation "Ельники (Мордовия)" d1 day_index =
        some (locBlock "Ельники (Мордовия)" s8 s14 s20) := by
      simp [renderLocation, h8, h14, h20]
    cases h2 : fetcher 59.9258 32.33819 with
    | error e =>
      simp [build_report, reportLoop, LOCATIONS, h1, hrl, h2, Except.map]
    | ok d2 =>
      exfalso
      obtain ⟨p, hp, herr⟩ := hfail
      simp only [LOCATIONS, List.mem_cons, List.mem_singleton] at hp
      rcases hp with hp | hp | hp
      · subst hp
        rw [h1] at herr
        cases herr
      · subst hp
        rw [h2] at herr
        cases herr
      · cases hp

/-- Witness for C5: when every fetch fails, the report build fails with the
upstream error. -/
theorem c5_upstream_error_propagates_witness :
    build_report (fun _ _ => .error ()) 0 = .error .upstream := by
  refine c5_upstream_error_propagates (fun _ _ => .error ()) 0 ?_ ?_
  · intro p hp d hd
    cases hd
  · exact ⟨("Ельники (Мордовия)", 54.62348, 43.87309), List.mem_cons_self _ _, rfl⟩

/-! ## Claim C8: the precipitation threshold -/

lemma ne_of_length_ne {a b : String} (h : a.length ≠ b.length) : a ≠ b :=
  fun e => h (e ▸ rfl)

/-- Counterexample to C8 as stated: the probability 19/2 = 9.5 is strictly
below 10, yet `round` (half to even) takes it to 10, so the rendered line
carries a precipitation part rather than omitting it. -/
theorem c8_below_threshold_counterexample :
    mkRat 19 2 < 10 ∧ precip_label 61 (some (mkRat 19 2)) = "дождь (10%)" :=
  ⟨by decide, by decide⟩

/-- C8 amended: the threshold applies to the probability rounded half-to-even
to an integer (`int(round(pop))`), not to the raw value.  A probability
rounding strictly below 10 renders no precipitation part (the slot line is
identical to one with no probability at all); a probability rounding to 10 or
more gets the snow label on snow codes, the rain label on rain codes, and the
generic label otherwise, and the three labels are pairwise distinct. -/
theorem c8_precip_threshold_amended (code : ℤ) (p : ℚ) :
    (roundHalfEven p < 10 →
      precip_label code (some p) = "" ∧
      ∀ temp, renderSlot temp code (some p) = renderSlot temp code none) ∧
    (10 ≤ roundHalfEven p →
      ((code = 71 ∨ code = 73 ∨ code = 75) →
        precip_label code (some p) = s!"снег ({roundHalfEven p}%)") ∧
      ((code = 61 ∨ code = 63 ∨ code = 65 ∨ code = 80) →
        precip_label code (some p) = s!"дождь ({roundHalfEven p}%)") ∧
      (¬(code = 71 ∨ code = 73 ∨ code = 75) →
        ¬(code = 61 ∨ code = 63 ∨ code = 65 ∨ code = 80) →
        precip_label code (some p) = s!"осадки ({roundHalfEven p}%)") ∧
      s!"снег ({roundHalfEven p}%)" ≠ s!"дождь ({roundHalfEven p}%)" ∧
      s!"снег ({roundHalfEven p}%)" ≠ s!"осадки ({roundHalfEven p}%)" ∧
      s!"дождь ({roundHalfEven p}%)" ≠ s!"осадки ({roundHalfEven p}%)") := by
  have e1 : (toString "снег (" : String).length = 6 := rfl
  have e2 : (toString "дождь (" : String).length = 7 := rfl
  have e3 : (toString "осадки (" : String).length = 8 := rfl
  constructor
  · intro hlt
    have hlab : precip_label code (some p) = "" := by
      simp only [precip_label]
      rw [if_pos hlt]
    refine ⟨hlab, fun temp => ?_⟩
    have hnone : precip_label code none = "" := rfl
    simp only [renderSlot, hlab, hnone]
  · intro hge
    have hnotlt : ¬ roundHalfEven p < 10 := not_lt.mpr hge
    refine ⟨?_, ?_, ?_, ?_, ?_, ?_⟩
    · intro hsnow
      simp only [precip_label]
      rw [if_neg hnotlt, if_pos hsnow]
    · intro hrain
      have hsnow : ¬(code = 71 ∨ code = 73 ∨ code = 75) := by
        rcases hrain with h | h | h | h <;> subst h <;> decide
      simp only [precip_label]
      rw [if_neg hnotlt, if_neg hsnow, if_pos hrain]
    · intro hsnow hrain
      simp only [precip_label]
      rw [if_neg hnotlt, if_neg hsnow, if_neg hrain]
    · apply ne_of_length_ne
      simp [String.length_append, e1, e2]
    · apply ne_of_length_ne
      simp [String.length_append, e1, e3]
    · apply ne_of_length_ne
      simp [String.length_append, e2, e3]

/-- Witness for the amended C8: a probability of 5 (rounding below 10) is
omitted, and a probability of 50 on a snow code renders the snow label. -/
theorem c8_precip_threshold_amended_witness :
    precip_label 61 (some 5) = "" ∧ precip_label 71 (some 50) = "снег (50%)" := by
  have h1 := (c8_precip_threshold_amended 61 5).1 (by decide)
  have h2 := (c8_precip_threshold_amended 71 50).2 (by decide)
  refine ⟨h1.1, ?_⟩
  rw [h2.1 (Or.inl rfl)]
  decide

end WeatherBot
